import Mathlib

/-!
Shallow embedding of `src/main.cpp` of the nonmanifold-laplacian repository.

The program builds a tufted intrinsic Laplacian over a possibly non-manifold
surface mesh, optionally writes the sparse matrices to disk, and (with `--gui`)
builds a vertex-separated tufted cover, flips it to Delaunay, traces every
intrinsic edge across the extrinsic triangles and renders the traced polylines
over a "bubbled" surface.

Handles (vertices, edges, faces) are natural numbers; machine doubles are
modelled as exact rationals (the claims under study concern control flow,
save/restore discipline and exact algebraic identities, not rounding).
-/

namespace TuftedViz

/-- Vertex handle (index into the mesh's vertex table). -/
abbrev Vertex := ℕ

/-- Edge handle. -/
abbrev Edge := ℕ

/-- Face handle. -/
abbrev Face := ℕ

/-- A barycentric coordinate triple (`Vector3 faceCoords` in the source). -/
abbrev Bary := ℚ × ℚ × ℚ

/-- Sum of a barycentric triple's components. -/
def barySum (b : Bary) : ℚ := b.1 + b.2.1 + b.2.2

/-- A 3D position (`Vector3` in the source). -/
abbrev Vector3 := ℚ × ℚ × ℚ

/-- `SurfacePoint`: a location on the surface tagged by a vertex, an
edge with a scalar, or a face with barycentric coordinates
(geometry-central's `SurfacePoint`, as described in the data model). -/
inductive SurfacePoint : Type
  | vertexP (v : Vertex)
  | edgeP (e : Edge) (t : ℚ)
  | faceP (f : Face) (b : Bary)
deriving DecidableEq, Repr

/-- Per-edge intrinsic length array (`signpostTri->intrinsicEdgeLengths`). -/
abbrev EdgeLengths := Edge → ℚ

/-! ## Interpolation (main.cpp lines 142-148)

For each consecutive pair of traced points re-expressed in a shared face,
the source computes
`tInterp = (iInterp + 1) / (pointsPerTriEdge + 1)` for
`iInterp = 0 .. pointsPerTriEdge - 1` and
`baryInterp = (1 - tInterp) * pAF.faceCoords + tInterp * pBF.faceCoords`. -/

/-- The interpolation parameter `tInterp` for interpolation index `iInterp`
out of `pointsPerTriEdge` (line 143 of main.cpp). -/
def tInterp (pointsPerTriEdge iInterp : ℕ) : ℚ :=
  ((iInterp : ℚ) + 1) / ((pointsPerTriEdge : ℚ) + 1)

/-- The linear barycentric blend `(1 - t) * a + t * b`, componentwise
(line 145 of main.cpp). -/
def baryInterp (t : ℚ) (a b : Bary) : Bary :=
  ((1 - t) * a.1 + t * b.1, (1 - t) * a.2.1 + t * b.2.1, (1 - t) * a.2.2 + t * b.2.2)

/-- The interpolated face points emitted between two consecutive traced points
`pA` and `pB`, both re-expressed in the shared face `sharedF` with barycentric
coordinates `aF` and `bF` (the inner loop, lines 142-148).
`sharedFaceOf` and `inFaceCoords` abstract geometry-central's
`sharedFace` / `SurfacePoint::inFace`. -/
def interpPoints (sharedFaceOf : SurfacePoint → SurfacePoint → Face)
    (inFaceCoords : SurfacePoint → Face → Bary)
    (pointsPerTriEdge : ℕ) (pA pB : SurfacePoint) : List SurfacePoint :=
  let sharedF := sharedFaceOf pA pB
  let aF := inFaceCoords pA sharedF
  let bF := inFaceCoords pB sharedF
  (List.range pointsPerTriEdge).map
    (fun iInterp => SurfacePoint.faceP sharedF
      (baryInterp (tInterp pointsPerTriEdge iInterp) aF bF))

/-! ## Polyline assembly (main.cpp lines 126-152)

Per edge, the source pushes `points.front()`, then for each `i` with
`i + 1 < points.size()` pushes the `pointsPerTriEdge` interpolated points
between `points[i]` and `points[i+1]` followed by `points[i+1]`. -/

/-- The tail of the emitted polyline after the first point: for the pair
`(pA, pB :: rest)` push the interpolated points, then `pB`, then recurse
(the body of the `for` loop over `i`, lines 131-152). -/
def segPoints (sharedFaceOf : SurfacePoint → SurfacePoint → Face)
    (inFaceCoords : SurfacePoint → Face → Bary)
    (pointsPerTriEdge : ℕ) : SurfacePoint → List SurfacePoint → List SurfacePoint
  | _, [] => []
  | pA, pB :: rest =>
      interpPoints sharedFaceOf inFaceCoords pointsPerTriEdge pA pB
        ++ pB :: segPoints sharedFaceOf inFaceCoords pointsPerTriEdge pB rest

/-- The full polyline of SurfacePoints emitted for one traced edge
(lines 126-152): the first traced point, then interpolants and traced points
pairwise.  The source reads `points.front()` unconditionally; traces are never
empty, and the empty case here is mapped to the empty polyline. -/
def tracedPolyline (sharedFaceOf : SurfacePoint → SurfacePoint → Face)
    (inFaceCoords : SurfacePoint → Face → Bary)
    (pointsPerTriEdge : ℕ) : List SurfacePoint → List SurfacePoint
  | [] => []
  | p :: rest => p :: segPoints sharedFaceOf inFaceCoords pointsPerTriEdge p rest

/-! ## Length nudge and restore (main.cpp lines 119-124)

```
double oldLen = signpostTri->intrinsicEdgeLengths[e];
signpostTri->intrinsicEdgeLengths[e] *= .999;
std::vector<SurfacePoint> points = signpostTri->traceHalfedge(he, false);
signpostTri->intrinsicEdgeLengths[e] = oldLen;
```
The trace is abstracted as a function of the current length array. -/

/-- One edge's nudge-trace-restore step: save the stored length, scale it by
`999/1000`, run the trace against the perturbed array, then write the saved
value back.  Returns the traced points and the final length array. -/
def traceEdgeWithNudge (lengths : EdgeLengths) (e : Edge)
    (traceHE : EdgeLengths → List SurfacePoint) :
    List SurfacePoint × EdgeLengths :=
  let oldLen := lengths e
  let nudged := Function.update lengths e (lengths e * (999 / 1000))
  let points := traceHE nudged
  let restored := Function.update nudged e oldLen
  (points, restored)

/-! ## generateVisualization (main.cpp lines 91-158)

The routine builds the polyline overlay from scratch: a fresh local
`lines` vector is populated by looping over all intrinsic edges, and the
result replaces (not extends) the previously registered overlay.  The
externally supplied pieces — the signpost trace (`traceHalfedge`), the
shared-face query, the in-face conversion and the bubble offset
(`BubbleOffset::queryPoint`, a pure function per the spec) — are parameters
gathered in `VizEnv`.  The mutable state the routine touches is the intrinsic
edge-length array and the registered overlay. -/

/-- The external collaborators consumed by `generateVisualization`:
`traceHE lengths e` is `signpostTri->traceHalfedge(e.halfedge(), false)`
run against the length array `lengths`; `sharedFaceOf` and `inFaceCoords`
are geometry-central's `sharedFace` and `SurfacePoint::inFace`;
`queryPoint` is `BubbleOffset::queryPoint` at the current bubble scale. -/
structure VizEnv : Type where
  traceHE : EdgeLengths → Edge → List SurfacePoint
  sharedFaceOf : SurfacePoint → SurfacePoint → Face
  inFaceCoords : SurfacePoint → Face → Bary
  queryPoint : SurfacePoint → Vector3

/-- The mutable state `generateVisualization` reads and writes: the intrinsic
edge-length array of the signpost triangulation and the currently registered
polyline overlay (`addSurfaceGraphQuantity("intrinsic edges", lines)`). -/
structure VizState : Type where
  intrinsicEdgeLengths : EdgeLengths
  overlay : List (List Vector3)

/-- One iteration of the edge loop (lines 113-155): nudge-trace-restore the
edge, assemble its polyline, map it through the bubble offset, and append it
to the accumulated `lines`. -/
def traceEdgeStep (env : VizEnv) (pointsPerTriEdge : ℕ)
    (acc : EdgeLengths × List (List Vector3)) (e : Edge) :
    EdgeLengths × List (List Vector3) :=
  let r := traceEdgeWithNudge acc.1 e (fun L => env.traceHE L e)
  let line := (tracedPolyline env.sharedFaceOf env.inFaceCoords pointsPerTriEdge
      r.1).map env.queryPoint
  (r.2, acc.2 ++ [line])

/-- `generateVisualization`: rebuilds the polyline overlay from an empty
`lines` vector by looping over every intrinsic edge, and leaves the (restored)
edge-length array behind.  `edges` enumerates `signpostTri->mesh.edges()`. -/
def generateVisualization (env : VizEnv) (edges : List Edge)
    (pointsPerTriEdge : ℕ) (st : VizState) : VizState :=
  let r := edges.foldl (traceEdgeStep env pointsPerTriEdge)
    (st.intrinsicEdgeLengths, [])
  { intrinsicEdgeLengths := r.1, overlay := r.2 }

/-! ## Vertex separation (main.cpp lines 62-66)

```
VertexData<Vertex> origVert = tuftedMesh->separateNonmanifoldVertices();
for (Vertex v : tuftedMesh->vertices()) {
  tuftedGeom->inputVertexPositions[v] = tuftedGeom->inputVertexPositions[origVert[v]];
}
```
The loop reads and writes the same position array, so it is modelled as a
sequential fold of in-place updates. -/

/-- The position-copy loop after `separateNonmanifoldVertices`: for each
vertex `v` in turn, overwrite `positions[v]` with the current value of
`positions[origVert v]`. -/
def copySeparatedPositions (origVert : Vertex → Vertex) (vs : List Vertex)
    (positions : Vertex → Vector3) : Vertex → Vector3 :=
  vs.foldl (fun p v => Function.update p v (p (origVert v))) positions

/-! ## Mollification (main.cpp lines 76-78)

```
if (mollifyFactor > 0) {
  mollifyIntrinsic(*manifoldTuftedMesh, tuftedEdgeLengths, mollifyFactor);
}
```
`mollifyIntrinsic` lives in geometry-central, outside this repository. -/

/-- Modelled from the spec: `mollifyIntrinsic` (geometry-central, not in
src/) "adds a fixed small positive amount to every edge length, scaled
relative to the mesh's mean edge length".  `meanEdgeLength` is that mean. -/
def mollifyIntrinsic (meanEdgeLength mollifyFactor : ℚ)
    (lengths : EdgeLengths) : EdgeLengths :=
  fun e => lengths e + mollifyFactor * meanEdgeLength

/-- The mollification guard in `generateVertexSeparatedTuftedCover`
(lines 76-78): mollify only when the configured factor is strictly
positive, otherwise leave the length array untouched. -/
def mollifyStep (meanEdgeLength mollifyFactor : ℚ)
    (lengths : EdgeLengths) : EdgeLengths :=
  if 0 < mollifyFactor then mollifyIntrinsic meanEdgeLength mollifyFactor lengths
  else lengths

/-! ## saveMatrix (main.cpp lines 161-189)

Opens the output file; on failure throws
`std::runtime_error("failed to open output file " + filename)` before any
write.  Otherwise sets the stream precision to 16 and writes, for each
nonzero entry, the single line `<row+1> <col+1> <value>` — no header line
(the dimension comment is commented out in the source). -/

/-- A nonzero entry of a sparse matrix: 0-based row and column indices and
the stored value (Eigen's `InnerIterator` view, which enumerates exactly the
nonzeros). -/
structure Triplet : Type where
  row : ℕ
  col : ℕ
  val : ℚ
deriving DecidableEq, Repr

/-- The stream precision `saveMatrix` sets before writing values
(`outFile << std::setprecision(16)`, line 176): 16 significant digits in the
default float format. -/
def savePrecision : ℕ := 16

/-- The text of one triplet line: 1-based row index, space, 1-based column
index, space, the value rendered by the output stream at `savePrecision`
significant digits (`fmtVal` abstracts C++ `operator<<` on the configured
stream). -/
def tripletLine (fmtVal : ℕ → ℚ → String) (t : Triplet) : String :=
  toString (t.row + 1) ++ " " ++ toString (t.col + 1) ++ " "
    ++ fmtVal savePrecision t.val

/-- `saveMatrix`: given whether the output file opened (`openOk`), produce
the list of lines actually written to the file and the thrown error message,
if any.  On open failure nothing is written and the error names the file;
otherwise exactly one line per nonzero entry is written, in iteration order,
with no header. -/
def saveMatrix (fmtVal : ℕ → ℚ → String) (filename : String) (openOk : Bool)
    (entries : List Triplet) : List String × Option String :=
  if openOk then (entries.map (tripletLine fmtVal), none)
  else ([], some ("failed to open output file " ++ filename))

/-! ## CLI argument handling (main.cpp lines 233-248)

```
try { parser.ParseCLI(argc, argv); }
catch (args::Help)       { std::cout << parser; return 0; }
catch (args::ParseError e) { std::cerr << e.what() << std::endl;
                             std::cerr << parser; return 1; }
if (!inputFilename) { std::cout << parser; return EXIT_FAILURE; }
```
The args library's parse itself is external; its three observable outcomes
are help requested, a parse error, or success with or without the positional
mesh argument. -/

/-- An output stream of the process. -/
inductive StdStream : Type
  | stdout
  | stderr
deriving DecidableEq, Repr

/-- What the argument-handling code writes: the parser's usage text
(`std::cout << parser` / `std::cerr << parser`) or a parse error's
`what()` message. -/
inductive OutMsg : Type
  | usage
  | parseErrorWhat
deriving DecidableEq, Repr

/-- Outcome of `parser.ParseCLI`: help flag seen, a parse error thrown, or
success, recording whether the positional `mesh` argument was supplied. -/
inductive ParseOutcome : Type
  | phelp
  | perror
  | pok (positionalGiven : Bool)
deriving DecidableEq, Repr

/-- The argument-handling of `main` (lines 233-248): the stream writes it
performs, in order, and the value it returns from `main` (`none` when
execution continues past line 248 into the pipeline). -/
def mainArgHandling : ParseOutcome → List (StdStream × OutMsg) × Option ℕ
  | .phelp => ([(.stdout, .usage)], some 0)
  | .perror => ([(.stderr, .parseErrorWhat), (.stderr, .usage)], some 1)
  | .pok false => ([(.stdout, .usage)], some 1)
  | .pok true => ([], none)

/-! ## Helper lemmas (shared) -/

/-- The restore write (line 124) puts back the value saved on line 119, so
the final length array equals the initial one. -/
lemma traceEdgeWithNudge_snd (lengths : EdgeLengths) (e : Edge)
    (traceHE : EdgeLengths → List SurfacePoint) :
    (traceEdgeWithNudge lengths e traceHE).2 = lengths := by
  funext x
  by_cases hx : x = e
  · subst hx
    simp [traceEdgeWithNudge, Function.update]
  · simp [traceEdgeWithNudge, Function.update, hx]

/-- The trace inside `traceEdgeWithNudge` runs against the nudged array. -/
lemma traceEdgeWithNudge_fst (lengths : EdgeLengths) (e : Edge)
    (traceHE : EdgeLengths → List SurfacePoint) :
    (traceEdgeWithNudge lengths e traceHE).1 =
      traceHE (Function.update lengths e (lengths e * (999 / 1000))) := rfl

/-- `interpPoints` emits exactly `pointsPerTriEdge` points. -/
lemma interpPoints_length (sf : SurfacePoint → SurfacePoint → Face)
    (ic : SurfacePoint → Face → Bary) (P : ℕ) (pA pB : SurfacePoint) :
    (interpPoints sf ic P pA pB).length = P := by
  simp [interpPoints]

lemma segPoints_length (sf : SurfacePoint → SurfacePoint → Face)
    (ic : SurfacePoint → Face → Bary) (P : ℕ) (pA : SurfacePoint)
    (l : List SurfacePoint) :
    (segPoints sf ic P pA l).length = l.length * (P + 1) := by
  induction l generalizing pA with
  | nil => simp [segPoints]
  | cons pB rest ih =>
      simp [segPoints, interpPoints_length, ih]
      ring

/-- In the polyline tail for traced points `pA :: l`, the `k`-th traced point
of `l` sits at index `k * (P + 1) + P`, after the `P` interpolants of its
segment. -/
lemma segPoints_getElem? (sf : SurfacePoint → SurfacePoint → Face)
    (ic : SurfacePoint → Face → Bary) (P : ℕ) (pA : SurfacePoint)
    (l : List SurfacePoint) (k : ℕ) (hk : k < l.length) :
    (segPoints sf ic P pA l)[k * (P + 1) + P]? = l[k]? := by
  induction l generalizing pA k with
  | nil => simp at hk
  | cons pB rest ih =>
      show (interpPoints sf ic P pA pB
          ++ pB :: segPoints sf ic P pB rest)[k * (P + 1) + P]? = _
      rw [List.getElem?_append_right (by rw [interpPoints_length]; omega)]
      rw [interpPoints_length]
      have hsub : k * (P + 1) + P - P = k * (P + 1) := by omega
      rw [hsub]
      cases k with
      | zero => simp
      | succ j =>
          have hidx : (j + 1) * (P + 1) = (j * (P + 1) + P) + 1 := by ring
          rw [hidx, List.getElem?_cons_succ, List.getElem?_cons_succ]
          exact ih pB j (by simpa using Nat.lt_of_succ_lt_succ (by simpa using hk))

/-- The emitted polyline keeps the `k`-th traced point at index
`k * (P + 1)`. -/
lemma tracedPolyline_getElem? (sf : SurfacePoint → SurfacePoint → Face)
    (ic : SurfacePoint → Face → Bary) (P : ℕ) (points : List SurfacePoint)
    (k : ℕ) (hk : k < points.length) :
    (tracedPolyline sf ic P points)[k * (P + 1)]? = points[k]? := by
  cases points with
  | nil => simp at hk
  | cons p rest =>
      cases k with
      | zero => simp [tracedPolyline]
      | succ j =>
          show (p :: segPoints sf ic P p rest)[(j + 1) * (P + 1)]? = _
          have hidx : (j + 1) * (P + 1) = (j * (P + 1) + P) + 1 := by ring
          rw [hidx, List.getElem?_cons_succ, List.getElem?_cons_succ]
          exact segPoints_getElem? sf ic P p rest j
            (Nat.lt_of_succ_lt_succ (by simpa using hk))

/-- Length of the emitted polyline for a nonempty traced point list. -/
lemma tracedPolyline_length (sf : SurfacePoint → SurfacePoint → Face)
    (ic : SurfacePoint → Face → Bary) (P : ℕ) (points : List SurfacePoint)
    (h : points ≠ []) :
    (tracedPolyline sf ic P points).length
      = 1 + (points.length - 1) * (P + 1) := by
  cases points with
  | nil => cases h rfl
  | cons p rest => simp [tracedPolyline, segPoints_length, Nat.add_comm]

/-- The emitted polyline starts at the first traced point. -/
lemma tracedPolyline_head? (sf : SurfacePoint → SurfacePoint → Face)
    (ic : SurfacePoint → Face → Bary) (P : ℕ) (points : List SurfacePoint)
    (h : points ≠ []) :
    (tracedPolyline sf ic P points).head? = points.head? := by
  cases points with
  | nil => cases h rfl
  | cons p rest => simp [tracedPolyline]

/-- The emitted polyline ends at the last traced point. -/
lemma tracedPolyline_getLast? (sf : SurfacePoint → SurfacePoint → Face)
    (ic : SurfacePoint → Face → Bary) (P : ℕ) (points : List SurfacePoint)
    (h : points ≠ []) :
    (tracedPolyline sf ic P points).getLast? = points.getLast? := by
  have hlen := tracedPolyline_length sf ic P points h
  have hn : 0 < points.length := List.length_pos.mpr h
  rw [List.getLast?_eq_getElem?, List.getLast?_eq_getElem?, hlen]
  have hidx : 1 + (points.length - 1) * (P + 1) - 1
      = (points.length - 1) * (P + 1) := by omega
  rw [hidx]
  exact tracedPolyline_getElem? sf ic P points (points.length - 1) (by omega)

/-- Slots at fixed points of `origVert` are never changed by the copy loop:
the write there stores the value already present. -/
lemma copySeparatedPositions_fixed (origVert : Vertex → Vertex)
    (vs : List Vertex) (positions : Vertex → Vector3) (w : Vertex)
    (hw : origVert w = w) :
    copySeparatedPositions origVert vs positions w = positions w := by
  induction vs generalizing positions with
  | nil => rfl
  | cons v tl ih =>
      show copySeparatedPositions origVert tl
        (Function.update positions v (positions (origVert v))) w = _
      rw [ih]
      by_cases hv : v = w
      · subst hv
        simp [Function.update, hw]
      · rw [Function.update_noteq (fun h => hv h.symm)]

/-- Slots outside the iterated vertex list are untouched by the copy loop. -/
lemma copySeparatedPositions_not_mem (origVert : Vertex → Vertex)
    (vs : List Vertex) (positions : Vertex → Vector3) (w : Vertex)
    (hw : w ∉ vs) :
    copySeparatedPositions origVert vs positions w = positions w := by
  induction vs generalizing positions with
  | nil => rfl
  | cons v tl ih =>
      show copySeparatedPositions origVert tl
        (Function.update positions v (positions (origVert v))) w = _
      rw [ih _ (fun h => hw (List.mem_cons_of_mem _ h))]
      have hv : v ≠ w := fun h => hw (h ▸ List.mem_cons_self _ _)
      rw [Function.update_noteq (fun h => hv h.symm)]

/-- The edge-loop fold of `generateVisualization` returns the length array it
started from: every iteration restores it. -/
lemma generateVisualization_foldl_fst (env : VizEnv) (P : ℕ)
    (edges : List Edge) (lengths : EdgeLengths)
    (acc : List (List Vector3)) :
    (edges.foldl (traceEdgeStep env P) (lengths, acc)).1 = lengths := by
  induction edges generalizing lengths acc with
  | nil => rfl
  | cons e tl ih =>
      have hstep : (traceEdgeStep env P (lengths, acc) e).1 = lengths :=
        traceEdgeWithNudge_snd lengths e (fun L => env.traceHE L e)
      show (tl.foldl (traceEdgeStep env P) (traceEdgeStep env P (lengths, acc) e)).1 = lengths
      cases hh : traceEdgeStep env P (lengths, acc) e with
      | mk a b =>
          rw [hh] at hstep
          have ha : a = lengths := hstep
          rw [ha]
          exact ih lengths b

/-- `generateVisualization` reads its input state only through the
edge-length array. -/
lemma generateVisualization_congr (env : VizEnv) (edges : List Edge) (P : ℕ)
    (st₁ st₂ : VizState)
    (h : st₁.intrinsicEdgeLengths = st₂.intrinsicEdgeLengths) :
    generateVisualization env edges P st₁ = generateVisualization env edges P st₂ := by
  unfold generateVisualization
  rw [h]

/-- `generateVisualization` leaves the edge-length array unchanged. -/
lemma generateVisualization_lengths (env : VizEnv) (edges : List Edge)
    (P : ℕ) (st : VizState) :
    (generateVisualization env edges P st).intrinsicEdgeLengths
      = st.intrinsicEdgeLengths := by
  unfold generateVisualization
  exact generateVisualization_foldl_fst env P edges _ _

/-! ## Claim theorems -/

/-- C1: For every intrinsic edge traced by the visualization generator, the
emitted polyline's first SurfacePoint equals the edge's start vertex and its
last SurfacePoint equals its end vertex.  The hypotheses are the trace
contract of the spec: `traceHalfedge` returns the path from the edge's start
vertex to its end vertex, beginning and ending with the endpoint vertex
SurfacePoints; the polyline-assembly loop preserves both endpoints. -/
theorem traced_polyline_endpoints_are_edge_vertices
    (sf : SurfacePoint → SurfacePoint → Face) (ic : SurfacePoint → Face → Bary)
    (P : ℕ) (points : List SurfacePoint) (vStart vEnd : Vertex)
    (hfirst : points.head? = some (SurfacePoint.vertexP vStart))
    (hlast : points.getLast? = some (SurfacePoint.vertexP vEnd)) :
    (tracedPolyline sf ic P points).head? = some (SurfacePoint.vertexP vStart) ∧
    (tracedPolyline sf ic P points).getLast? = some (SurfacePoint.vertexP vEnd) := by
  have hne : points ≠ [] := by
    intro h
    rw [h] at hfirst
    simp at hfirst
  exact ⟨by rw [tracedPolyline_head? sf ic P points hne, hfirst],
         by rw [tracedPolyline_getLast? sf ic P points hne, hlast]⟩

/-- Witness for C1 at a concrete two-point trace. -/
theorem traced_polyline_endpoints_witness :
    (tracedPolyline (fun _ _ => 0) (fun _ _ => (1, 0, 0)) 0
        [SurfacePoint.vertexP 0, SurfacePoint.vertexP 1]).head?
      = some (SurfacePoint.vertexP 0) ∧
    (tracedPolyline (fun _ _ => 0) (fun _ _ => (1, 0, 0)) 0
        [SurfacePoint.vertexP 0, SurfacePoint.vertexP 1]).getLast?
      = some (SurfacePoint.vertexP 1) :=
  traced_polyline_endpoints_are_edge_vertices (fun _ _ => 0) (fun _ _ => (1, 0, 0))
    0 [SurfacePoint.vertexP 0, SurfacePoint.vertexP 1] 0 1 rfl rfl

/-- C2: tracing an edge multiplies its stored intrinsic length by 0.999,
traces against the perturbed array, and then restores the saved value, so
the edge-length array after the trace equals the array before it, for every
edge, every length array and every trace. -/
theorem trace_nudge_restores_lengths (lengths : EdgeLengths) (e : Edge)
    (traceHE : EdgeLengths → List SurfacePoint) :
    (traceEdgeWithNudge lengths e traceHE).1
        = traceHE (Function.update lengths e (lengths e * (999 / 1000))) ∧
    (traceEdgeWithNudge lengths e traceHE).2 = lengths :=
  ⟨traceEdgeWithNudge_fst lengths e traceHE, traceEdgeWithNudge_snd lengths e traceHE⟩

/-- C4: the interpolation parameters `(i+1)/(N+1)` for `i = 0 .. N-1` lie
strictly inside `(0,1)`; the barycentric blend `(1-t)·A + t·B` sums to 1
whenever `A` and `B` sum to 1; and the `i`-th interpolated point is exactly
the face point at the blend of the in-face coordinates at parameter
`tInterp N i`. -/
theorem interp_params_interior_and_bary_sum_one :
    (∀ P i : ℕ, i < P → 0 < tInterp P i ∧ tInterp P i < 1) ∧
    (∀ (t : ℚ) (a b : Bary), barySum a = 1 → barySum b = 1 →
      barySum (baryInterp t a b) = 1) ∧
    (∀ (sf : SurfacePoint → SurfacePoint → Face)
       (ic : SurfacePoint → Face → Bary) (P : ℕ) (pA pB : SurfacePoint)
       (i : ℕ), i < P →
      (interpPoints sf ic P pA pB)[i]?
        = some (SurfacePoint.faceP (sf pA pB)
            (baryInterp (tInterp P i) (ic pA (sf pA pB)) (ic pB (sf pA pB))))) := by
  refine ⟨?_, ?_, ?_⟩
  · intro P i hi
    unfold tInterp
    constructor
    · apply div_pos <;> positivity
    · rw [div_lt_one (by positivity)]
      have hcast : (i : ℚ) < (P : ℚ) := by exact_mod_cast hi
      linarith
  · intro t a b ha hb
    unfold barySum baryInterp
    unfold barySum at ha hb
    linear_combination (1 - t) * ha + t * hb
  · intro sf ic P pA pB i hi
    simp [interpPoints, List.getElem?_map, List.getElem?_range hi]

/-- Witness for C4 at concrete parameters and barycentric triples. -/
theorem interp_params_witness :
    (0 < tInterp 10 0 ∧ tInterp 10 0 < 1) ∧
    barySum (baryInterp (1 / 2) (1, 0, 0) (0, 1, 0)) = 1 ∧
    (interpPoints (fun _ _ => 0) (fun _ _ => (1, 0, 0)) 1
        (SurfacePoint.vertexP 0) (SurfacePoint.vertexP 1))[0]?
      = some (SurfacePoint.faceP 0 (baryInterp (tInterp 1 0) (1, 0, 0) (1, 0, 0))) :=
  ⟨interp_params_interior_and_bary_sum_one.1 10 0 (by norm_num),
   interp_params_interior_and_bary_sum_one.2.1 (1 / 2) (1, 0, 0) (0, 1, 0)
     (by norm_num [barySum]) (by norm_num [barySum]),
   interp_params_interior_and_bary_sum_one.2.2 (fun _ _ => 0) (fun _ _ => (1, 0, 0))
     1 (SurfacePoint.vertexP 0) (SurfacePoint.vertexP 1) 0 (by norm_num)⟩

/-- C10: for a trace of `n ≥ 2` SurfacePoints, the emitted polyline has
`1 + (n-1)·(pointsPerTriEdge+1)` points and keeps the `k`-th traced point,
in order, at index `k·(pointsPerTriEdge+1)` — so exactly `pointsPerTriEdge`
interpolated points separate each consecutive traced pair. -/
theorem traced_polyline_point_count (sf : SurfacePoint → SurfacePoint → Face)
    (ic : SurfacePoint → Face → Bary) (P : ℕ) (points : List SurfacePoint)
    (h2 : 2 ≤ points.length) :
    (tracedPolyline sf ic P points).length
        = 1 + (points.length - 1) * (P + 1) ∧
    ∀ k, k < points.length →
      (tracedPolyline sf ic P points)[k * (P + 1)]? = points[k]? := by
  have hne : points ≠ [] := by
    intro h
    rw [h] at h2
    simp at h2
  exact ⟨tracedPolyline_length sf ic P points hne,
         fun k hk => tracedPolyline_getElem? sf ic P points k hk⟩

/-- Witness for C10 at a concrete two-point trace with zero interpolants. -/
theorem traced_polyline_point_count_witness :
    (tracedPolyline (fun _ _ => 0) (fun _ _ => (1, 0, 0)) 0
        [SurfacePoint.vertexP 0, SurfacePoint.vertexP 1]).length
      = 1 + (2 - 1) * (0 + 1) ∧
    (tracedPolyline (fun _ _ => 0) (fun _ _ => (1, 0, 0)) 0
        [SurfacePoint.vertexP 0, SurfacePoint.vertexP 1])[1 * (0 + 1)]?
      = some (SurfacePoint.vertexP 1) :=
  ⟨(traced_polyline_point_count (fun _ _ => 0) (fun _ _ => (1, 0, 0)) 0
      [SurfacePoint.vertexP 0, SurfacePoint.vertexP 1] (by norm_num)).1,
   ((traced_polyline_point_count (fun _ _ => 0) (fun _ _ => (1, 0, 0)) 0
      [SurfacePoint.vertexP 0, SurfacePoint.vertexP 1] (by norm_num)).2 1
        (by norm_num)).trans rfl⟩

/-- C3: with mollification factor zero (or any non-positive factor) the
length array is left pointwise identical; with a strictly positive factor
(and a positive mean edge length) every edge length strictly increases, so
mollification is applied exactly when the factor is strictly positive. -/
theorem mollify_zero_identity_applied_iff_positive
    (meanEdgeLength mollifyFactor : ℚ) (lengths : EdgeLengths) :
    (mollifyFactor = 0 → mollifyStep meanEdgeLength mollifyFactor lengths = lengths) ∧
    (mollifyFactor ≤ 0 → mollifyStep meanEdgeLength mollifyFactor lengths = lengths) ∧
    (0 < mollifyFactor → 0 < meanEdgeLength →
      ∀ e, lengths e < mollifyStep meanEdgeLength mollifyFactor lengths e) := by
  refine ⟨?_, ?_, ?_⟩
  · intro h
    subst h
    unfold mollifyStep
    rw [if_neg (lt_irrefl 0)]
  · intro h
    unfold mollifyStep
    rw [if_neg (not_lt.mpr h)]
  · intro hf hm e
    unfold mollifyStep mollifyIntrinsic
    rw [if_pos hf]
    nlinarith [mul_pos hf hm]

/-- Witness for C3: factor 0 is the identity; factor 1 strictly increases. -/
theorem mollify_zero_identity_witness :
    mollifyStep 1 0 (fun _ => 2) = (fun _ => 2) ∧
    (fun _ : Edge => (2 : ℚ)) 0 < mollifyStep 1 1 (fun _ => 2) 0 :=
  ⟨(mollify_zero_identity_applied_iff_positive 1 0 (fun _ => 2)).1 rfl,
   (mollify_zero_identity_applied_iff_positive 1 1 (fun _ => 2)).2.2
     one_pos one_pos 0⟩

/-- C5: after the separation loop, every vertex's position equals the
position of the original vertex it was split from.  The hypothesis is that
`separateNonmanifoldVertices` maps every vertex to an original vertex, i.e.
`origVert` is idempotent. -/
theorem separated_vertex_positions_preserved (origVert : Vertex → Vertex)
    (vs : List Vertex) (positions : Vertex → Vector3)
    (hfix : ∀ v, origVert (origVert v) = origVert v) :
    ∀ v ∈ vs, copySeparatedPositions origVert vs positions v
      = positions (origVert v) := by
  induction vs generalizing positions with
  | nil =>
      intro v hv
      simp at hv
  | cons a tl ih =>
      intro v hv
      show copySeparatedPositions origVert tl
        (Function.update positions a (positions (origVert a))) v = _
      set pos' := Function.update positions a (positions (origVert a)) with hdef
      have hagree : ∀ x, pos' (origVert x) = positions (origVert x) := by
        intro x
        by_cases hax : a = origVert x
        · have h1 : origVert a = a := by
            calc origVert a = origVert (origVert x) := by rw [hax]
              _ = origVert x := hfix x
              _ = a := hax.symm
          rw [← hax, hdef, Function.update_same, h1]
        · rw [hdef, Function.update_noteq (fun h => hax h.symm)]
      by_cases hmem : v ∈ tl
      · exact (ih pos' v hmem).trans (hagree v)
      · have hva : v = a := by
          rcases List.mem_cons.mp hv with h | h
          · exact h
          · exact absurd h hmem
        subst hva
        rw [copySeparatedPositions_not_mem origVert tl pos' v hmem, hdef,
          Function.update_same]

/-- Witness for C5 at a concrete idempotent origin map. -/
theorem separated_vertex_positions_witness :
    copySeparatedPositions (fun _ => 0) [0, 1, 2]
        (fun n => ((n : ℚ), 0, 0)) 2
      = (fun n : Vertex => ((n : ℚ), 0, 0)) ((fun _ : Vertex => 0) 2) :=
  separated_vertex_positions_preserved (fun _ => 0) [0, 1, 2]
    (fun n => ((n : ℚ), 0, 0)) (fun _ => rfl) 2 (by decide)

/-- C6: when the output file opens, the writer emits exactly one line per
nonzero entry, in iteration order, of the form `<row+1> <col+1> <value>`
with the value rendered at 16 significant digits, and no header line. -/
theorem saveMatrix_one_line_per_nonzero (fmtVal : ℕ → ℚ → String)
    (filename : String) (entries : List Triplet) :
    (saveMatrix fmtVal filename true entries).1.length = entries.length ∧
    (∀ i, (h : i < entries.length) →
      (saveMatrix fmtVal filename true entries).1[i]?
        = some (toString (entries[i].row + 1) ++ " "
            ++ toString (entries[i].col + 1) ++ " " ++ fmtVal 16 entries[i].val)) ∧
    (saveMatrix fmtVal filename true entries).2 = none := by
  refine ⟨by simp [saveMatrix], ?_, rfl⟩
  intro i h
  show (entries.map (tripletLine fmtVal))[i]? = _
  rw [List.getElem?_map, List.getElem?_eq_getElem h]
  rfl

/-- Witness for C6 on a one-entry matrix. -/
theorem saveMatrix_one_line_witness :
    (saveMatrix (fun _ _ => "v") "tufted_laplacian.spmat" true
        [⟨0, 1, 5⟩]).1[0]? = some "1 2 v" := by
  rw [(saveMatrix_one_line_per_nonzero (fun _ _ => "v") "tufted_laplacian.spmat"
      [⟨0, 1, 5⟩]).2.1 0 (by norm_num)]
  decide

/-- C8: if the output file fails to open, the writer throws a runtime error
whose message is "failed to open output file " followed by the file name,
and writes no triplet lines beforehand. -/
theorem saveMatrix_open_failure_no_output (fmtVal : ℕ → ℚ → String)
    (filename : String) (entries : List Triplet) :
    (saveMatrix fmtVal filename false entries).1 = [] ∧
    (saveMatrix fmtVal filename false entries).2
      = some ("failed to open output file " ++ filename) :=
  ⟨rfl, rfl⟩

/-- C7 counterexample: when the positional mesh argument is omitted (with
no parse error), `main` prints the usage text to standard output — line 246
is `std::cout << parser` — and nothing at all to standard error, while
returning exit code 1; the claim's "prints the parser's usage text to
standard error" is false at this input. -/
theorem cli_missing_mesh_usage_on_stdout_not_stderr :
    (mainArgHandling (ParseOutcome.pok false)).2 = some 1 ∧
    (mainArgHandling (ParseOutcome.pok false)).1
      = [(StdStream.stdout, OutMsg.usage)] ∧
    ¬ (StdStream.stderr, OutMsg.usage) ∈ (mainArgHandling (ParseOutcome.pok false)).1 :=
  ⟨rfl, rfl, by decide⟩

/-- C7 amended: a parse error is reported to standard error with the usage
text and exit code 1; a missing positional mesh argument prints the usage
text to standard output and exits with code 1; help prints usage to
standard output and exits with code 0. -/
theorem cli_usage_streams_and_exit_codes :
    mainArgHandling ParseOutcome.perror
      = ([(StdStream.stderr, OutMsg.parseErrorWhat),
          (StdStream.stderr, OutMsg.usage)], some 1) ∧
    mainArgHandling (ParseOutcome.pok false)
      = ([(StdStream.stdout, OutMsg.usage)], some 1) ∧
    mainArgHandling ParseOutcome.phelp
      = ([(StdStream.stdout, OutMsg.usage)], some 0) :=
  ⟨rfl, rfl, rfl⟩

/-- C9: regeneration is a function of the triangulation state (the
edge-length array) and the parameters alone — two runs from states agreeing
there produce identical overlays — it restores the edge-length array, and
re-invoking it on its own result changes nothing (idempotence; the overlay
is discarded and rebuilt, never extended). -/
theorem generateVisualization_deterministic_rebuild (env : VizEnv)
    (edges : List Edge) (P : ℕ) (st₁ st₂ : VizState)
    (h : st₁.intrinsicEdgeLengths = st₂.intrinsicEdgeLengths) :
    generateVisualization env edges P st₁ = generateVisualization env edges P st₂ ∧
    (generateVisualization env edges P st₁).intrinsicEdgeLengths
        = st₁.intrinsicEdgeLengths ∧
    generateVisualization env edges P (generateVisualization env edges P st₁)
        = generateVisualization env edges P st₁ :=
  ⟨generateVisualization_congr env edges P st₁ st₂ h,
   generateVisualization_lengths env edges P st₁,
   generateVisualization_congr env edges P _ st₁
     (generateVisualization_lengths env edges P st₁)⟩

/-- A concrete environment for the C9 witness: a two-point trace, a constant
shared face, constant in-face coordinates and a constant bubble offset. -/
def demoEnv : VizEnv :=
  ⟨fun _ _ => [SurfacePoint.vertexP 0, SurfacePoint.vertexP 1],
   fun _ _ => 0, fun _ _ => (1, 0, 0), fun _ => (0, 0, 0)⟩

/-- Witness for C9: two states with equal length arrays but different prior
overlays regenerate to the same result. -/
theorem generateVisualization_rebuild_witness :
    generateVisualization demoEnv [0] 0 ⟨fun _ => 1, []⟩
        = generateVisualization demoEnv [0] 0 ⟨fun _ => 1, [[(0, 0, 0)]]⟩ ∧
    (generateVisualization demoEnv [0] 0 ⟨fun _ => 1, []⟩).intrinsicEdgeLengths
        = (⟨fun _ => 1, []⟩ : VizState).intrinsicEdgeLengths ∧
    generateVisualization demoEnv [0] 0
        (generateVisualization demoEnv [0] 0 ⟨fun _ => 1, []⟩)
        = generateVisualization demoEnv [0] 0 ⟨fun _ => 1, []⟩ :=
  generateVisualization_deterministic_rebuild demoEnv [0] 0
    ⟨fun _ => 1, []⟩ ⟨fun _ => 1, [[(0, 0, 0)]]⟩ rfl

end TuftedViz
